import Mathlib

/-!
A shallow embedding of `alfanous/Support/whoosh/filedb/structfile.py`.

The underlying file is a list of byte values (naturals below 256 in any
well-formed file).  A `StructFile` instance is a record holding the file
contents, the sequential cursor of the wrapped handle, the optional
diagnostic name, the mapped view (`realMap = some snapshot` for a real
`mmap`, `none` for the synthetic `fakemap` that translates every access
into seek-then-read on the handle), and the lifecycle bookkeeping used by
`close` (presence of the `map` attribute, the `onclose` hook, the handle's
close capability, the `is_closed` flag).

Python operations that raise are modelled with `Option`/`Except`.
IEEE-754 floats are represented by their 32-bit big-endian bit patterns:
`struct.unpack("!f", bs)` is an injective function of the four bytes, so
two reads return identical floats exactly when the modelled patterns are
equal.
-/

set_option maxHeartbeats 1000000
set_option maxRecDepth 4000

namespace Structfile

/-- Byte strings: lists of byte values. -/
abbrev Bytes := List Nat

/-- Big-endian interpretation of a byte string as an unsigned number
(the value decoded by `struct.unpack` with the `!` byte order). -/
def beNat (bs : Bytes) : Nat := bs.foldl (fun a b => a * 256 + b) 0

/-- Reinterpret a `w`-bit unsigned value as the two's-complement signed
value, as `struct.unpack` does for the signed typecodes. -/
def toSigned (w v : Nat) : Int :=
  if v < 2 ^ (w - 1) then (v : Int) else (v : Int) - 2 ^ w

/-- The value of a fallible read, `none` when it raised. -/
def exceptVal {e a b : Type} : Except e (a × b) → Option a
  | .ok (v, _) => some v
  | .error _ => none

/-- Python `ord` applied to a byte string: defined only on length-1
strings (raises `TypeError` otherwise, e.g. on the empty read at EOF). -/
def ordOpt : Bytes → Option Nat
  | [b] => some b
  | _ => none

/-- The state of a `StructFile` instance together with the wrapped file. -/
structure SF where
  /-- contents of the underlying file -/
  data : Bytes
  /-- the handle's sequential cursor (used by `read`/`write`/`tell`/`seek`) -/
  pos : Nat
  /-- the `_name` diagnostic label -/
  name : Option String
  /-- `some snapshot` for a real `mmap` taken at construction;
      `none` when the synthetic `fakemap` is installed -/
  realMap : Option Bytes
  /-- the `map` attribute exists (it is `del`eted by `close`) -/
  mapPresent : Bool
  /-- an `onclose` hook was registered -/
  hasOnclose : Bool
  /-- number of times the `onclose` hook has been invoked with `self` -/
  oncloseCount : Nat
  /-- the wrapped handle has a `close` method -/
  handleHasClose : Bool
  /-- the wrapped handle has been closed -/
  handleClosed : Bool
  /-- the `is_closed` flag -/
  is_closed : Bool
deriving Repr, DecidableEq

/-- A fresh instance over an empty writable file (used for concrete
evaluations). -/
def emptySF : SF :=
  { data := [], pos := 0, name := none, realMap := none, mapPresent := true,
    hasOnclose := false, oncloseCount := 0, handleHasClose := false,
    handleClosed := false, is_closed := false }

/-- `self.file.read(n)` / the aliased `self.read`: returns up to `n` bytes
from the cursor and advances the cursor by the number of bytes obtained. -/
def readBytes (s : SF) (n : Nat) : Bytes × SF :=
  let bs := (s.data.drop s.pos).take n
  (bs, { s with pos := s.pos + bs.length })

/-- `self.seek(p)`: absolute seek of the sequential cursor. -/
def seekTo (s : SF) (p : Nat) : SF := { s with pos := p }

/-- `self.tell()`. -/
def tell (s : SF) : Nat := s.pos

/-- Writing `bs` at offset `p` of file contents `d`: bytes before `p` are
kept, a seek past EOF pads with zero bytes, `bs` overwrites in place, and
the old bytes after the written span are kept. -/
def overwriteAt (d : Bytes) (p : Nat) (bs : Bytes) : Bytes :=
  d.take p ++ List.replicate (p - d.length) 0 ++ bs ++ d.drop (p + bs.length)

/-- `self.file.write(bs)` / the aliased `self.write`: writes at the
cursor and advances it past the written bytes. -/
def writeBytes (s : SF) (bs : Bytes) : SF :=
  { s with data := overwriteAt s.data s.pos bs, pos := s.pos + bs.length }

/-- `self.map[a:b]`.  A real `mmap` slice yields the bytes of the
snapshot (clamped at its end) without touching the instance; the
synthetic `fakemap.__getitem__` runs `_self.seek(slice.start)` followed by
`_self.read(slice.stop - slice.start)` on the handle. -/
def mapSlice (s : SF) (a b : Nat) : Bytes × SF :=
  match s.realMap with
  | some m => ((m.drop a).take (b - a), s)
  | none => readBytes (seekTo s a) (b - a)

/-- `self.map[p]` for a single index, as consumed by `get_byte`'s `ord`.
On a real `mmap`, indexing with an int yields an `int` in Python 3 and the
subsequent `ord(int)` raises `TypeError`, modelled as `none`; the
synthetic `fakemap` seeks to `p` and returns `read(1)`. -/
def mapIndexByte (s : SF) (p : Nat) : Option Nat × SF :=
  match s.realMap with
  | some _ => (none, s)
  | none => (ordOpt (readBytes (seekTo s p) 1).1, (readBytes (seekTo s p) 1).2)

/- Fixed sizes of the `!`-byte-order struct formats, as exported by the
`whoosh.system` module. -/

def _INT_SIZE : Nat := 4
def _USHORT_SIZE : Nat := 2
def _ULONG_SIZE : Nat := 4
def _FLOAT_SIZE : Nat := 4

/-- `unpack_sbyte`: one byte, two's-complement signed. -/
def unpack_sbyte (bs : Bytes) : Option Int :=
  if bs.length = 1 then some (toSigned 8 (beNat bs)) else none

/-- `unpack_int`: four bytes, big-endian two's-complement signed. -/
def unpack_int (bs : Bytes) : Option Int :=
  if bs.length = 4 then some (toSigned 32 (beNat bs)) else none

/-- `unpack_uint`: four bytes, big-endian unsigned. -/
def unpack_uint (bs : Bytes) : Option Nat :=
  if bs.length = 4 then some (beNat bs) else none

/-- `unpack_ushort`: two bytes, big-endian unsigned. -/
def unpack_ushort (bs : Bytes) : Option Nat :=
  if bs.length = 2 then some (beNat bs) else none

/-- `unpack_ulong`: four bytes (`struct` format `!L`), big-endian unsigned. -/
def unpack_ulong (bs : Bytes) : Option Nat :=
  if bs.length = 4 then some (beNat bs) else none

/-- `unpack_float`: four bytes; the decoded IEEE-754 single is represented
by its big-endian bit pattern. -/
def unpack_float (bs : Bytes) : Option Nat :=
  if bs.length = 4 then some (beNat bs) else none

/-- `read_sbyte`. -/
def read_sbyte (s : SF) : Option Int × SF :=
  (unpack_sbyte (readBytes s 1).1, (readBytes s 1).2)

/-- The data carried by the `IOError` that `read_int` raises on a
truncated read (the f-string renders exactly these values). -/
structure IntReadErr where
  name : Option String
  position : Nat
  got : Nat
  expected : Nat
deriving Repr, DecidableEq

/-- `read_int`: reads `_INT_SIZE` bytes; if fewer were obtained it raises
a descriptive `IOError` naming the file, `self.tell()` (queried after the
short read), the expected count and the obtained count; otherwise it
decodes the big-endian signed 32-bit value. -/
def read_int (s : SF) : Except IntReadErr (Int × SF) :=
  if (readBytes s _INT_SIZE).1.length < _INT_SIZE then
    .error { name := s.name, position := tell (readBytes s _INT_SIZE).2,
             got := (readBytes s _INT_SIZE).1.length, expected := _INT_SIZE }
  else
    .ok (toSigned 32 (beNat (readBytes s _INT_SIZE).1), (readBytes s _INT_SIZE).2)

/-- `read_uint` (reads `_INT_SIZE` bytes). -/
def read_uint (s : SF) : Option Nat × SF :=
  (unpack_uint (readBytes s _INT_SIZE).1, (readBytes s _INT_SIZE).2)

/-- `read_ushort`. -/
def read_ushort (s : SF) : Option Nat × SF :=
  (unpack_ushort (readBytes s _USHORT_SIZE).1, (readBytes s _USHORT_SIZE).2)

/-- `read_ulong`. -/
def read_ulong (s : SF) : Option Nat × SF :=
  (unpack_ulong (readBytes s _ULONG_SIZE).1, (readBytes s _ULONG_SIZE).2)

/-- `read_float` (result as IEEE bit pattern). -/
def read_float (s : SF) : Option Nat × SF :=
  (unpack_float (readBytes s _FLOAT_SIZE).1, (readBytes s _FLOAT_SIZE).2)

/-- The array typecodes `"bBiIhHlLf"` accepted by
`read_array`/`get_array`. -/
inductive TC | b | B | i | I | h | H | l | L | f
deriving Repr, DecidableEq

/-- `calcsize` of each typecode in `!` byte order (the `_SIZEMAP`). -/
def TC.size : TC → Nat
  | .b => 1 | .B => 1 | .h => 2 | .H => 2
  | .i => 4 | .I => 4 | .l => 4 | .L => 4 | .f => 4

/-- Whether `struct` decodes the typecode as a signed integer. -/
def TC.signed : TC → Bool
  | .b => true | .h => true | .i => true | .l => true | _ => false

/-- Decode one element of an array from its byte chunk (floats are kept
as bit patterns, embedded into `Int`). -/
def decodeElem (tc : TC) (bs : Bytes) : Int :=
  if tc.signed then toSigned (8 * tc.size) (beNat bs) else (beNat bs : Int)

/-- Split a byte string into `k` chunks of `tc.size` bytes and decode
each, as `Struct("!" + typecode * length).unpack` does. -/
def chunkDecode (tc : TC) : Nat → Bytes → List Int
  | 0, _ => []
  | k + 1, bs => decodeElem tc (bs.take tc.size) :: chunkDecode tc k (bs.drop tc.size)

/-- `unpack` of a homogeneous array format: requires the exact byte count
(`struct.error` otherwise). -/
def unpackList (tc : TC) (k : Nat) (bs : Bytes) : Option (List Int) :=
  if bs.length = tc.size * k then some (chunkDecode tc k bs) else none

/-- `read_array`. -/
def read_array (s : SF) (tc : TC) (k : Nat) : Option (List Int) × SF :=
  (unpackList tc k (readBytes s (tc.size * k)).1, (readBytes s (tc.size * k)).2)

/-- `get_sbyte(position)`: decode `self.map[position:position+1]`. -/
def get_sbyte (s : SF) (p : Nat) : Option Int × SF :=
  (unpack_sbyte (mapSlice s p (p + 1)).1, (mapSlice s p (p + 1)).2)

/-- `get_int(position)`. -/
def get_int (s : SF) (p : Nat) : Option Int × SF :=
  (unpack_int (mapSlice s p (p + _INT_SIZE)).1, (mapSlice s p (p + _INT_SIZE)).2)

/-- `get_uint(position)`. -/
def get_uint (s : SF) (p : Nat) : Option Nat × SF :=
  (unpack_uint (mapSlice s p (p + _INT_SIZE)).1, (mapSlice s p (p + _INT_SIZE)).2)

/-- `get_ushort(position)`. -/
def get_ushort (s : SF) (p : Nat) : Option Nat × SF :=
  (unpack_ushort (mapSlice s p (p + _USHORT_SIZE)).1, (mapSlice s p (p + _USHORT_SIZE)).2)

/-- `get_ulong(position)`. -/
def get_ulong (s : SF) (p : Nat) : Option Nat × SF :=
  (unpack_ulong (mapSlice s p (p + _ULONG_SIZE)).1, (mapSlice s p (p + _ULONG_SIZE)).2)

/-- `get_float(position)` (result as IEEE bit pattern). -/
def get_float (s : SF) (p : Nat) : Option Nat × SF :=
  (unpack_float (mapSlice s p (p + _FLOAT_SIZE)).1, (mapSlice s p (p + _FLOAT_SIZE)).2)

/-- `get_array(position, typecode, length)`. -/
def get_array (s : SF) (p : Nat) (tc : TC) (k : Nat) : Option (List Int) × SF :=
  (unpackList tc k (mapSlice s p (p + tc.size * k)).1, (mapSlice s p (p + tc.size * k)).2)

/-- `read_byte`: `ord(self.file.read(1))`. -/
def read_byte (s : SF) : Option Nat × SF :=
  (ordOpt (readBytes s 1).1, (readBytes s 1).2)

/-- `get_byte(position)`: `ord(self.map[position])`. -/
def get_byte (s : SF) (p : Nat) : Option Nat × SF := mapIndexByte s p

/-- `write_byte(n)`: the source runs `self.file.write(bytes(n))`.  In
Python 3, `bytes(n)` for an int `n` is a string of `n` zero bytes, so this
writes `n` NUL bytes (the docstring's intended `chr(n)` would write the
single byte `n`). -/
def write_byte (s : SF) (n : Nat) : SF :=
  writeBytes s (List.replicate n 0)

/-- Modelled from the spec: the encoder of the variable-length integer
(`whoosh.util.varint`, not under `src/`) — each byte carries 7 payload
bits and a continuation flag in the top bit, least-significant group
first: while more than 7 bits remain, emit the low 7 bits with the
continuation bit set and shift; finally emit the remaining bits alone. -/
def varint (i : Nat) : Bytes :=
  if h : i < 128 then [i]
  else (i % 128 + 128) :: varint (i / 128)
decreasing_by
  exact Nat.div_lt_self (by omega) (by omega)

/-- Modelled from the spec: the decoder of the variable-length integer
(`whoosh.util.read_varint`, not under `src/`) — read one byte at a time
from the stream, or-ing each byte's low 7 bits into the accumulator at a
shift that grows by 7, until a byte without the continuation flag.
Returns the value and the number of bytes consumed; `none` when the
stream ends first (`ord` of an empty read raises). -/
def read_varint_from : Bytes → Nat → Nat → Option (Nat × Nat)
  | [], _, _ => none
  | b :: rest, shift, acc =>
    let acc2 := acc ||| (b % 128) <<< shift
    if b < 128 then some (acc2, 1)
    else
      match read_varint_from rest (shift + 7) acc2 with
      | some (v, c) => some (v, c + 1)
      | none => none

/-- `read_varint`: runs the decoder on `self.file.read`, i.e. on the
bytes at the sequential cursor, advancing it past the consumed bytes. -/
def read_varint (s : SF) : Option (Nat × SF) :=
  match read_varint_from (s.data.drop s.pos) 0 0 with
  | some (v, c) => some (v, { s with pos := s.pos + c })
  | none => none

/-- `write_varint(i)`: `self.file.write(varint(i))`. -/
def write_varint (s : SF) (i : Nat) : SF :=
  writeBytes s (varint i)

/-- `write_string(s)`: varint length prefix, then the raw bytes. -/
def write_string (s : SF) (str : Bytes) : SF :=
  writeBytes (write_varint s str.length) str

/-- `read_string()`: `self.file.read(self.read_varint())`. -/
def read_string (s : SF) : Option (Bytes × SF) :=
  match read_varint s with
  | some (l, s1) => some (readBytes s1 l)
  | none => none

/-- `pack_ushort(n)`: `struct` raises for a value outside `0..65535`;
otherwise the two big-endian bytes. -/
def pack_ushort (n : Nat) : Except Unit Bytes :=
  if n < 65536 then .ok [n / 256, n % 256] else .error ()

/-- `write_string2(s)`: a single `self.write` of the fixed 2-byte
unsigned length prefix followed by the bytes; raises `struct.error` when
the length does not fit in 16 bits. -/
def write_string2 (s : SF) (str : Bytes) : Except Unit SF :=
  match pack_ushort str.length with
  | .ok pre => .ok (writeBytes s (pre ++ str))
  | .error e => .error e

/-- `read_string2()`: `self.read(self.read_ushort())`. -/
def read_string2 (s : SF) : Option (Bytes × SF) :=
  match read_ushort s with
  | (some l, s1) => some (readBytes s1 l)
  | (none, _) => none

/-- Modelled from the spec: the compact 1-byte float encoder
(`whoosh.util.float_to_byte`, not under `src/`).  The input float is
represented by its IEEE-754 single-precision bit pattern, reinterpreted
as a signed 32-bit integer exactly as the code's
`unpack("i", pack("f", value))` does; negative values and zero clamp to
byte 0, positive underflow to byte 1, overflow saturates to byte 255,
and in-range values store the shifted exponent/mantissa bits minus the
zero point. -/
def float_to_byte (bits : Nat) (mantissabits : Nat) (zeroexp : Nat) : Nat :=
  let fzero : Int := ((63 - zeroexp) <<< mantissabits : Nat)
  let sbits : Int := toSigned 32 bits
  let smallfloat : Int := Int.fdiv sbits (2 ^ (24 - mantissabits))
  if smallfloat < fzero then
    if sbits ≤ 0 then 0 else 1
  else if fzero + 256 ≤ smallfloat then 255
  else (smallfloat - fzero).toNat

/-- Modelled from the spec: the compact 1-byte float decoder
(`whoosh.util.byte_to_float`, not under `src/`).  Byte 0 decodes to 0.0;
otherwise the byte is shifted back into the mantissa position and the
exponent zero point is added.  The result is the decoded float's IEEE
bit pattern. -/
def byte_to_float (b : Nat) (mantissabits : Nat) (zeroexp : Nat) : Nat :=
  if b = 0 then 0
  else ((b % 256) <<< (24 - mantissabits)) + ((63 - zeroexp) <<< 24)

/-- `write_8bitfloat(f, mantissabits, zeroexp)`:
`self.write_byte(float_to_byte(f, mantissabits, zeroexp))`. -/
def write_8bitfloat (s : SF) (bits mantissabits zeroexp : Nat) : SF :=
  write_byte s (float_to_byte bits mantissabits zeroexp)

/-- `read_8bitfloat(mantissabits, zeroexp)`:
`byte_to_float(self.read_byte(), mantissabits, zeroexp)`. -/
def read_8bitfloat (s : SF) (mantissabits zeroexp : Nat) : Option Nat × SF :=
  ((read_byte s).1.map fun b => byte_to_float b mantissabits zeroexp, (read_byte s).2)

/-- The wrapped file object as seen by the constructor: its contents
(whose length `os.fstat` reports as the size), whether it has a `mode`
attribute, the mode string, and whether it has a `close` method. -/
structure Handle where
  data : Bytes
  hasMode : Bool
  mode : List Char
  hasClose : Bool

/-- `StructFile.__init__(fileobj, name, onclose, mapped)`.  `mmapOk`
stands for the outcome of the OS-level `mmap.mmap` call: `false` means it
raised `OSError`, which the constructor catches.  A real mapping is
installed only when mapping was requested, the handle is in a read mode,
the file is non-empty and the `mmap` call succeeds; in every other case
the synthetic `fakemap` is installed and construction still succeeds. -/
def StructFile_init (fileobj : Handle) (name : Option String)
    (onclose : Bool) (mapped : Bool) (mmapOk : Bool) : SF :=
  { data := fileobj.data
    pos := 0
    name := name
    realMap :=
      if mapped && fileobj.hasMode && fileobj.mode.contains 'r' then
        if 0 < fileobj.data.length then
          if mmapOk then some fileobj.data else none
        else none
      else none
    mapPresent := true
    hasOnclose := onclose
    oncloseCount := 0
    handleHasClose := fileobj.hasClose
    handleClosed := false
    is_closed := false }

/-- `close()`: `del self.map` (raises `AttributeError`, carried as
`.error` with the untouched state, when the attribute is already gone);
then the `onclose` hook is invoked with `self` if registered, the handle
is closed if it has a `close` method, and `is_closed` is set. -/
def close (s : SF) : Except SF SF :=
  if s.mapPresent = false then
    .error s
  else
    let s1 := { s with mapPresent := false }
    let s2 := if s1.hasOnclose then { s1 with oncloseCount := s1.oncloseCount + 1 } else s1
    let s3 := if s2.handleHasClose then { s2 with handleClosed := true } else s2
    .ok { s3 with is_closed := true }

/-- Example state for concrete evaluations: a synthetic-mapping instance
over a three-byte file. -/
def synth3 : SF := { emptySF with data := [5, 6, 7] }

/-- Example state for concrete evaluations: a real-mapping instance over
a four-byte file, with the mapping snapshot taken at construction. -/
def real4 : SF := { emptySF with data := [1, 2, 3, 4], realMap := some [1, 2, 3, 4] }

/-- Example state for C1's witness: a real-mapping instance over an
eight-byte file. -/
def real8 : SF :=
  { emptySF with
    data := [1, 2, 3, 4, 5, 6, 7, 8],
    realMap := some [1, 2, 3, 4, 5, 6, 7, 8] }

/- Helper lemmas about the embedding. -/

theorem prefix_length (d : Bytes) (p : Nat) :
    (d.take p ++ List.replicate (p - d.length) 0).length = p := by
  simp only [List.length_append, List.length_take, List.length_replicate]
  omega

theorem drop_length_append (l1 l2 : Bytes) (n : Nat) (h : l1.length = n) :
    (l1 ++ l2).drop n = l2 := by
  subst h; exact List.drop_left l1 l2

theorem take_length_append (l1 l2 : Bytes) (n : Nat) (h : l1.length = n) :
    (l1 ++ l2).take n = l1 := by
  subst h; exact List.take_left l1 l2

theorem overwriteAt_drop (d : Bytes) (p : Nat) (bs : Bytes) :
    (overwriteAt d p bs).drop p = bs ++ d.drop (p + bs.length) := by
  unfold overwriteAt
  rw [List.append_assoc (d.take p ++ List.replicate (p - d.length) 0) bs
    (d.drop (p + bs.length))]
  exact drop_length_append _ _ _ (prefix_length d p)

theorem drop_writeBytes (s : SF) (bs : Bytes) :
    ((writeBytes s bs).data).drop s.pos = bs ++ s.data.drop (s.pos + bs.length) :=
  overwriteAt_drop s.data s.pos bs

theorem drop_append_le (Y : Bytes) : ∀ (X : Bytes) (p : Nat), p ≤ X.length →
    (X ++ Y).drop p = X.drop p ++ Y := by
  intro X
  induction X with
  | nil =>
    intro p hp
    have hp0 : p = 0 := by simpa using hp
    subst hp0; simp
  | cons x xs ih =>
    intro p hp
    cases p with
    | zero => simp
    | succ q => simpa using ih q (by simpa using hp)

theorem drop_append_add (l1 l2 : Bytes) (n : Nat) :
    (l1 ++ l2).drop (l1.length + n) = l2.drop n := by
  rw [← List.drop_drop, List.drop_left]

theorem overwriteAt_length_ge (d : Bytes) (p : Nat) (bs : Bytes) :
    p + bs.length ≤ (overwriteAt d p bs).length := by
  unfold overwriteAt
  simp only [List.length_append, List.length_take, List.length_replicate,
    List.length_drop]
  omega

theorem overwriteAt_drop_of_le (d : Bytes) (p q : Nat) (bs : Bytes)
    (h1 : p ≤ q) (h2 : q ≤ d.length) :
    (overwriteAt d q bs).drop p =
      (d.drop p).take (q - p) ++ bs ++ d.drop (q + bs.length) := by
  unfold overwriteAt
  have hz : q - d.length = 0 := by omega
  rw [hz, List.replicate_zero, List.append_nil]
  rw [List.append_assoc (d.take q) bs (d.drop (q + bs.length))]
  rw [drop_append_le _ (d.take q) p (by simp [List.length_take]; omega)]
  rw [List.drop_take, List.append_assoc]

theorem drop_writeBytes_writeBytes (s : SF) (a b : Bytes) :
    ((writeBytes (writeBytes s a) b).data).drop s.pos =
      a ++ b ++ s.data.drop (s.pos + a.length + b.length) := by
  have h1 : (writeBytes s a).data.drop s.pos = a ++ s.data.drop (s.pos + a.length) :=
    drop_writeBytes s a
  have h2 : s.pos + a.length ≤ (writeBytes s a).data.length :=
    overwriteAt_length_ge s.data s.pos a
  have h3 : ((writeBytes (writeBytes s a) b).data).drop s.pos =
      ((writeBytes s a).data.drop s.pos).take a.length ++ b ++
        (writeBytes s a).data.drop (s.pos + a.length + b.length) := by
    have := overwriteAt_drop_of_le (writeBytes s a).data s.pos (s.pos + a.length) b
      (by omega) h2
    simpa [writeBytes, Nat.add_sub_cancel_left] using this
  rw [h3, h1, take_length_append a _ a.length rfl]
  have h4 : (writeBytes s a).data.drop (s.pos + a.length + b.length) =
      s.data.drop (s.pos + a.length + b.length) := by
    have h5 : (writeBytes s a).data.drop (s.pos + a.length + b.length) =
        ((writeBytes s a).data.drop s.pos).drop (a.length + b.length) := by
      rw [List.drop_drop]; congr 1; omega
    rw [h5, h1]
    rw [← List.drop_drop]
    rw [List.drop_left]
    rw [List.drop_drop]
  rw [h4, List.append_assoc]

/- The variable-length integer encoding round-trips: arithmetic lemmas. -/

theorem lor_disjoint : ∀ (sh a m : Nat), a < 2 ^ sh → a ||| m <<< sh = a + m * 2 ^ sh := by
  intro sh
  induction sh with
  | zero =>
    intro a m h
    have ha : a = 0 := by omega
    subst ha
    simp [Nat.zero_or, Nat.shiftLeft_eq]
  | succ sh ih =>
    intro a m h
    have hs : m <<< (sh + 1) = 2 * (m <<< sh) := by rw [Nat.shiftLeft_succ]
    have hpow : (2 : Nat) ^ (sh + 1) = 2 * 2 ^ sh := by ring
    have ha2 : a / 2 < 2 ^ sh := by omega
    have hdiv : (a ||| m <<< (sh + 1)) / 2 = a / 2 + m * 2 ^ sh := by
      rw [Nat.or_div_two, hs, Nat.mul_div_cancel_left _ (by omega : (0:Nat) < 2)]
      exact ih (a / 2) m ha2
    have heven : (m <<< (sh + 1)) % 2 = 0 := by omega
    have hiff : ((a ||| m <<< (sh + 1)) % 2 = 1) ↔ (a % 2 = 1 ∨ (m <<< (sh + 1)) % 2 = 1) :=
      Nat.or_mod_two_eq_one
    have hgoal : a ||| m <<< (sh + 1) = a + 2 * (m * 2 ^ sh) := by omega
    rw [hgoal, hpow]; ring

theorem read_varint_from_spec : ∀ (n : Nat) (rest : Bytes) (shift acc : Nat),
    acc < 2 ^ shift →
    read_varint_from (varint n ++ rest) shift acc =
      some (acc + n * 2 ^ shift, (varint n).length) := by
  intro n
  induction n using Nat.strong_induction_on with
  | _ n ih =>
    intro rest shift acc hacc
    by_cases h : n < 128
    · rw [varint]
      simp only [h, dif_pos, List.cons_append, List.nil_append, List.length_cons,
        List.length_nil]
      simp only [read_varint_from]
      have hm : n % 128 = n := Nat.mod_eq_of_lt h
      simp only [hm, h, if_pos]
      rw [lor_disjoint shift acc n hacc]
    · have hb2 : (n % 128 + 128) % 128 = n % 128 := by omega
      have hacc2 : acc ||| (n % 128) <<< shift = acc + (n % 128) * 2 ^ shift :=
        lor_disjoint shift acc (n % 128) hacc
      have hpow7 : (2 : Nat) ^ (shift + 7) = 2 ^ shift * 128 := by
        rw [pow_add]; norm_num
      have hmul : (n % 128) * 2 ^ shift ≤ 127 * 2 ^ shift :=
        Nat.mul_le_mul_right _ (by omega)
      have hlt : acc + (n % 128) * 2 ^ shift < 2 ^ (shift + 7) := by omega
      have hrec := ih (n / 128) (Nat.div_lt_self (by omega) (by omega)) rest (shift + 7)
        (acc + (n % 128) * 2 ^ shift) hlt
      have hval : acc + (n % 128) * 2 ^ shift + n / 128 * 2 ^ (shift + 7) =
          acc + n * 2 ^ shift := by
        have hn : 128 * (n / 128) + n % 128 = n := Nat.div_add_mod n 128
        have key : ∀ (A t q r : Nat), A + r * t + q * (t * 128) = A + (128 * q + r) * t := by
          intro A t q r; ring
        rw [hpow7, key acc (2 ^ shift) (n / 128) (n % 128), hn]
      rw [varint, dif_neg h]
      simp only [List.cons_append, read_varint_from, hb2, hacc2]
      rw [if_neg (by omega : ¬ (n % 128 + 128 < 128))]
      rw [show List.append (varint (n / 128)) rest = varint (n / 128) ++ rest from rfl]
      rw [hrec, hval]
      simp

theorem varint_roundtrip (n : Nat) (rest : Bytes) :
    read_varint_from (varint n ++ rest) 0 0 = some (n, (varint n).length) := by
  have := read_varint_from_spec n rest 0 0 (by omega)
  simpa using this

theorem readBytes_of_drop (s1 : SF) (str tail : Bytes)
    (h : s1.data.drop s1.pos = str ++ tail) :
    readBytes s1 str.length = (str, { s1 with pos := s1.pos + str.length }) := by
  unfold readBytes
  rw [h, take_length_append str tail _ rfl]

theorem read_varint_of_drop (s1 : SF) (n : Nat) (tail : Bytes)
    (h : s1.data.drop s1.pos = varint n ++ tail) :
    read_varint s1 = some (n, { s1 with pos := s1.pos + (varint n).length }) := by
  unfold read_varint
  rw [h, varint_roundtrip]

theorem read_string_of_varint (s1 s2 : SF) (L : Nat)
    (h : read_varint s1 = some (L, s2)) :
    read_string s1 = some (readBytes s2 L) := by
  unfold read_string
  rw [h]

theorem read_string2_of_ushort (s1 s2 : SF) (L : Nat)
    (h : read_ushort s1 = (some L, s2)) :
    read_string2 s1 = some (readBytes s2 L) := by
  unfold read_string2
  rw [h]

/-- C2: for every non-negative integer `n`, writing `n` with `write_varint`
and then reading with `read_varint` at the same position returns exactly
`n`: the 7-bits-per-byte, continuation-flag, least-significant-group-first
encoding round-trips. -/
theorem c2_varint_roundtrip (s : SF) (n : Nat) :
    ∃ t, read_varint (seekTo (write_varint s n) s.pos) = some (n, t) :=
  ⟨_, read_varint_of_drop (seekTo (write_varint s n) s.pos) n
    (s.data.drop (s.pos + (varint n).length)) (drop_writeBytes s (varint n))⟩

/-- C5: the claim is broken by the code: `write_byte(n)` runs
`self.file.write(bytes(n))`, which in Python 3 appends `n` zero bytes
instead of the single byte `n` promised by its own docstring
(`shortcut for file.write(chr(n))`).  At `n = 2` the write appends the
two bytes `[0, 0]`, and `read_byte` at the written position returns `0`,
not `2`. -/
theorem c5_write_byte_bug :
    (write_byte emptySF 2).data = [0, 0] ∧
    (write_byte emptySF 2).data.length ≠ 1 ∧
    (read_byte (seekTo (write_byte emptySF 2) 0)).1 = some 0 ∧
    (0 : Nat) ≠ 2 := by
  decide

/-- C9: the claim is broken by the code through the same `write_byte`
slip: `write_8bitfloat(f)` runs `write_byte(float_to_byte(f))`, which
appends `float_to_byte(f)` zero bytes instead of the one encoded byte.
For `f = 1.0` (IEEE-754 single bit pattern `0x3F800000 = 1065353216`)
with the default `mantissabits = 5`, `zeroexp = 2`, the encoder byte is
`80`, so the write appends 80 NUL bytes and `read_8bitfloat` at the
written position decodes byte `0`, returning `0.0` (bit pattern 0)
instead of a value near `1.0`. -/
theorem c9_write_8bitfloat_bug :
    float_to_byte 1065353216 5 2 = 80 ∧
    (write_8bitfloat emptySF 1065353216 5 2).data = List.replicate 80 0 ∧
    (write_8bitfloat emptySF 1065353216 5 2).data.length = 80 ∧
    (read_8bitfloat (seekTo (write_8bitfloat emptySF 1065353216 5 2) 0) 5 2).1 = some 0 ∧
    byte_to_float 0 5 2 = 0 ∧ (0 : Nat) ≠ 1065353216 := by
  decide

theorem write_string2_long (s : SF) (str : Bytes) (h : 65536 ≤ str.length) :
    write_string2 s str = .error () := by
  unfold write_string2
  rw [show pack_ushort str.length = .error () from by
    unfold pack_ushort; rw [if_neg (by omega)]]

/-- C3 counterexample: the claim fails as stated for variant 2.  For a
string of 65536 bytes, `write_string2` raises `struct.error` from
`pack_ushort(len(s))` (the length does not fit the fixed 2-byte unsigned
prefix), so the string cannot be written, let alone read back. -/
theorem c3_counterexample :
    write_string2 emptySF (List.replicate 65536 0) = .error () :=
  write_string2_long emptySF (List.replicate 65536 0)
    (by simp only [List.length_replicate, le_refl])

/-- C3 (amended): variant 1 (`write_string`/`read_string`, varint length
prefix) round-trips for every string; variant 2
(`write_string2`/`read_string2`, fixed 2-byte unsigned length prefix)
round-trips exactly for strings of at most 65535 bytes, and
`write_string2` raises `struct.error` for longer strings. -/
theorem c3_string_roundtrips (s : SF) (str : Bytes) :
    (∃ t, read_string (seekTo (write_string s str) s.pos) = some (str, t)) ∧
    (str.length < 65536 → ∃ t u, write_string2 s str = .ok t ∧
      read_string2 (seekTo t s.pos) = some (str, u)) ∧
    (65536 ≤ str.length → write_string2 s str = .error ()) := by
  refine ⟨?_, ?_, ?_⟩
  · have h1 : (seekTo (write_string s str) s.pos).data.drop
        (seekTo (write_string s str) s.pos).pos =
        varint str.length ++
          (str ++ s.data.drop (s.pos + (varint str.length).length + str.length)) := by
      show ((writeBytes (writeBytes s (varint str.length)) str).data).drop s.pos = _
      rw [drop_writeBytes_writeBytes, List.append_assoc]
    have h2 := read_varint_of_drop _ str.length _ h1
    have h3 : ({ seekTo (write_string s str) s.pos with
        pos := (seekTo (write_string s str) s.pos).pos + (varint str.length).length } : SF).data.drop
        ({ seekTo (write_string s str) s.pos with
          pos := (seekTo (write_string s str) s.pos).pos + (varint str.length).length } : SF).pos =
        str ++ s.data.drop (s.pos + (varint str.length).length + str.length) := by
      show (seekTo (write_string s str) s.pos).data.drop
        ((seekTo (write_string s str) s.pos).pos + (varint str.length).length) = _
      have hc := congrArg (List.drop (varint str.length).length) h1
      rw [List.drop_drop, List.drop_left] at hc
      exact hc
    have h4 := readBytes_of_drop _ str _ h3
    exact ⟨_, by rw [read_string_of_varint _ _ _ h2, h4]⟩
  · intro hlen
    have hpre : pack_ushort str.length = .ok [str.length / 256, str.length % 256] := by
      simp [pack_ushort, hlen]
    have hok : write_string2 s str =
        .ok (writeBytes s ([str.length / 256, str.length % 256] ++ str)) := by
      simp [write_string2, hpre]
    have h1 : (seekTo (writeBytes s ([str.length / 256, str.length % 256] ++ str)) s.pos).data.drop
        (seekTo (writeBytes s ([str.length / 256, str.length % 256] ++ str)) s.pos).pos =
        [str.length / 256, str.length % 256] ++
          (str ++ s.data.drop (s.pos + (2 + str.length))) := by
      show ((writeBytes s ([str.length / 256, str.length % 256] ++ str)).data).drop s.pos = _
      rw [drop_writeBytes s ([str.length / 256, str.length % 256] ++ str)]
      rw [show (([str.length / 256, str.length % 256] ++ str : Bytes)).length =
        2 + str.length from by
        simp only [List.length_append, List.length_cons, List.length_nil]]
      rw [List.append_assoc]
    have hread2 : readBytes (seekTo (writeBytes s
          ([str.length / 256, str.length % 256] ++ str)) s.pos) 2 =
        ([str.length / 256, str.length % 256],
          { seekTo (writeBytes s ([str.length / 256, str.length % 256] ++ str)) s.pos with
            pos := (seekTo (writeBytes s
              ([str.length / 256, str.length % 256] ++ str)) s.pos).pos + 2 }) := by
      have := readBytes_of_drop _ [str.length / 256, str.length % 256] _ h1
      simpa using this
    have hbe : beNat [str.length / 256, str.length % 256] = str.length := by
      show (0 * 256 + str.length / 256) * 256 + str.length % 256 = str.length
      omega
    have h3 : ({ seekTo (writeBytes s ([str.length / 256, str.length % 256] ++ str)) s.pos with
        pos := (seekTo (writeBytes s
          ([str.length / 256, str.length % 256] ++ str)) s.pos).pos + 2 } : SF).data.drop
        ({ seekTo (writeBytes s ([str.length / 256, str.length % 256] ++ str)) s.pos with
          pos := (seekTo (writeBytes s
            ([str.length / 256, str.length % 256] ++ str)) s.pos).pos + 2 } : SF).pos =
        str ++ s.data.drop (s.pos + (2 + str.length)) := by
      show (seekTo (writeBytes s ([str.length / 256, str.length % 256] ++ str)) s.pos).data.drop
        ((seekTo (writeBytes s ([str.length / 256, str.length % 256] ++ str)) s.pos).pos + 2) = _
      have hc := congrArg (List.drop 2) h1
      rw [List.drop_drop] at hc
      rw [show List.drop 2 ([str.length / 256, str.length % 256] ++
        (str ++ s.data.drop (s.pos + (2 + str.length)))) =
          str ++ s.data.drop (s.pos + (2 + str.length)) from
        drop_length_append _ _ 2 rfl] at hc
      exact hc
    have h4 := readBytes_of_drop _ str _ h3
    have hup : unpack_ushort [str.length / 256, str.length % 256] = some str.length := by
      rw [show unpack_ushort [str.length / 256, str.length % 256] =
        some (beNat [str.length / 256, str.length % 256]) from rfl, hbe]
    have hu : read_ushort (seekTo (writeBytes s
          ([str.length / 256, str.length % 256] ++ str)) s.pos) =
        (some str.length,
          { seekTo (writeBytes s ([str.length / 256, str.length % 256] ++ str)) s.pos with
            pos := (seekTo (writeBytes s
              ([str.length / 256, str.length % 256] ++ str)) s.pos).pos + 2 }) := by
      unfold read_ushort
      rw [show (_USHORT_SIZE : Nat) = 2 from rfl, hread2]
      simp only [hup]
    exact ⟨_, _, hok, by rw [read_string2_of_ushort _ _ _ hu, h4]⟩
  · intro hlen
    unfold write_string2
    rw [show pack_ushort str.length = .error () from by
      unfold pack_ushort; rw [if_neg (by omega)]]

/-- C4: when the handle yields fewer than 4 bytes, `read_int` fails with
the descriptive truncation error carrying the file identity, the cursor
position (`tell()` after the short read), the expected byte count (4) and
the byte count actually obtained — it does not decode partial bytes; with
at least 4 bytes available it returns the big-endian signed 32-bit
value. -/
theorem c4_read_int (s : SF) :
    (s.data.length - s.pos < 4 →
      read_int s = .error
        { name := s.name,
          position := s.pos + ((s.data.drop s.pos).take 4).length,
          got := ((s.data.drop s.pos).take 4).length,
          expected := 4 }) ∧
    (s.pos + 4 ≤ s.data.length →
      read_int s = .ok (toSigned 32 (beNat ((s.data.drop s.pos).take 4)),
        { s with pos := s.pos + 4 })) := by
  have hlen : ((s.data.drop s.pos).take 4).length = min 4 (s.data.length - s.pos) := by
    simp [List.length_take, List.length_drop]
  constructor
  · intro h
    unfold read_int
    rw [if_pos]
    · rfl
    · show ((readBytes s _INT_SIZE).1).length < _INT_SIZE
      show ((s.data.drop s.pos).take 4).length < 4
      omega
  · intro h
    have h4 : ((s.data.drop s.pos).take 4).length = 4 := by omega
    unfold read_int
    rw [if_neg]
    · show Except.ok (toSigned 32 (beNat ((s.data.drop s.pos).take 4)),
        ({ s with pos := s.pos + ((s.data.drop s.pos).take 4).length } : SF)) = _
      rw [h4]
    · show ¬ ((readBytes s _INT_SIZE).1).length < _INT_SIZE
      show ¬ ((s.data.drop s.pos).take 4).length < 4
      omega

/-- C4 witness: a one-byte file triggers the truncation error with the
documented fields, and a four-byte file decodes successfully. -/
theorem c4_witness :
    (({ emptySF with data := [1] } : SF).data.length -
      ({ emptySF with data := [1] } : SF).pos < 4 ∧
      read_int { emptySF with data := [1] } =
        .error { name := none, position := 1, got := 1, expected := 4 }) ∧
    (({ emptySF with data := [0, 0, 1, 0] } : SF).pos + 4 ≤
      ({ emptySF with data := [0, 0, 1, 0] } : SF).data.length ∧
      read_int { emptySF with data := [0, 0, 1, 0] } =
        .ok (256, { emptySF with data := [0, 0, 1, 0], pos := 4 })) := by
  constructor
  · refine ⟨by decide, ?_⟩
    have h := (c4_read_int { emptySF with data := [1] }).1 (by decide)
    rw [h]
    rfl
  · refine ⟨by decide, ?_⟩
    have h := (c4_read_int { emptySF with data := [0, 0, 1, 0] }).2 (by decide)
    rw [h]
    rfl

theorem mapSlice_bytes (s : SF) (p w : Nat)
    (hm : s.realMap = none ∨ s.realMap = some s.data) :
    (mapSlice s p (p + w)).1 = (s.data.drop p).take w := by
  rcases hm with h | h <;>
    simp [mapSlice, h, readBytes, seekTo, Nat.add_sub_cancel_left]

/-- C1: for every supported fixed-width type (sbyte, int, uint, ushort,
ulong, float, array) and every absolute offset `p` — in particular every
offset within the file — the random-access `get_X(p)` against the mapped
view returns a result identical to seeking the sequential cursor to `p`
and performing the equivalent sequential `read_X()`, on both the
real-mapping path (snapshot taken of the file contents) and the
synthetic-mapping path; both paths read the same byte span and apply the
same decoder, and on a truncated span both fail alike. -/
theorem c1_get_read_equiv (s : SF) (p : Nat) (tc : TC) (k : Nat)
    (hm : s.realMap = none ∨ s.realMap = some s.data) :
    (get_sbyte s p).1 = (read_sbyte (seekTo s p)).1 ∧
    (get_int s p).1 = exceptVal (read_int (seekTo s p)) ∧
    (get_uint s p).1 = (read_uint (seekTo s p)).1 ∧
    (get_ushort s p).1 = (read_ushort (seekTo s p)).1 ∧
    (get_ulong s p).1 = (read_ulong (seekTo s p)).1 ∧
    (get_float s p).1 = (read_float (seekTo s p)).1 ∧
    (get_array s p tc k).1 = (read_array (seekTo s p) tc k).1 := by
  have hb1 := mapSlice_bytes s p 1 hm
  have hb2 := mapSlice_bytes s p 2 hm
  have hb4 := mapSlice_bytes s p 4 hm
  have hba := mapSlice_bytes s p (tc.size * k) hm
  have hlen : ((s.data.drop p).take 4).length ≤ 4 := by
    simp only [List.length_take, List.length_drop]
    omega
  refine ⟨?_, ?_, ?_, ?_, ?_, ?_, ?_⟩
  · show (unpack_sbyte (mapSlice s p (p + 1)).1, (mapSlice s p (p + 1)).2).1 =
      (unpack_sbyte (readBytes (seekTo s p) 1).1, (readBytes (seekTo s p) 1).2).1
    simp [hb1, readBytes, seekTo]
  · show (unpack_int (mapSlice s p (p + _INT_SIZE)).1, (mapSlice s p (p + _INT_SIZE)).2).1 = _
    show unpack_int (mapSlice s p (p + 4)).1 = exceptVal (read_int (seekTo s p))
    rw [hb4]
    unfold read_int
    rw [show (_INT_SIZE : Nat) = 4 from rfl]
    rw [show ((readBytes (seekTo s p) 4).1) = (s.data.drop p).take 4 from by
      simp [readBytes, seekTo]]
    by_cases hL : ((s.data.drop p).take 4).length = 4
    · rw [if_neg (by omega)]
      unfold unpack_int
      rw [if_pos hL]
      rfl
    · rw [if_pos (by omega)]
      unfold unpack_int
      rw [if_neg hL]
      rfl
  · show (unpack_uint (mapSlice s p (p + _INT_SIZE)).1, (mapSlice s p (p + _INT_SIZE)).2).1 =
      (unpack_uint (readBytes (seekTo s p) _INT_SIZE).1, (readBytes (seekTo s p) _INT_SIZE).2).1
    rw [show (_INT_SIZE : Nat) = 4 from rfl]
    simp [hb4, readBytes, seekTo]
  · show (unpack_ushort (mapSlice s p (p + _USHORT_SIZE)).1,
        (mapSlice s p (p + _USHORT_SIZE)).2).1 =
      (unpack_ushort (readBytes (seekTo s p) _USHORT_SIZE).1,
        (readBytes (seekTo s p) _USHORT_SIZE).2).1
    rw [show (_USHORT_SIZE : Nat) = 2 from rfl]
    simp [hb2, readBytes, seekTo]
  · show (unpack_ulong (mapSlice s p (p + _ULONG_SIZE)).1,
        (mapSlice s p (p + _ULONG_SIZE)).2).1 =
      (unpack_ulong (readBytes (seekTo s p) _ULONG_SIZE).1,
        (readBytes (seekTo s p) _ULONG_SIZE).2).1
    rw [show (_ULONG_SIZE : Nat) = 4 from rfl]
    simp [hb4, readBytes, seekTo]
  · show (unpack_float (mapSlice s p (p + _FLOAT_SIZE)).1,
        (mapSlice s p (p + _FLOAT_SIZE)).2).1 =
      (unpack_float (readBytes (seekTo s p) _FLOAT_SIZE).1,
        (readBytes (seekTo s p) _FLOAT_SIZE).2).1
    rw [show (_FLOAT_SIZE : Nat) = 4 from rfl]
    simp [hb4, readBytes, seekTo]
  · show (unpackList tc k (mapSlice s p (p + tc.size * k)).1,
        (mapSlice s p (p + tc.size * k)).2).1 =
      (unpackList tc k (readBytes (seekTo s p) (tc.size * k)).1,
        (readBytes (seekTo s p) (tc.size * k)).2).1
    simp [hba, readBytes, seekTo]

/-- C1 witness: the equivalence instantiated on the real-mapping
eight-byte instance at offset 0 with a two-element unsigned byte array,
and on the synthetic three-byte instance at the in-file offset 2 where
only a signed byte still fits. -/
theorem c1_witness :
    (real8.realMap = none ∨ real8.realMap = some real8.data) ∧
    (get_int real8 0).1 = exceptVal (read_int (seekTo real8 0)) ∧
    (get_array real8 0 TC.B 2).1 = (read_array (seekTo real8 0) TC.B 2).1 ∧
    (synth3.realMap = none ∨ synth3.realMap = some synth3.data) ∧
    (get_sbyte synth3 2).1 = (read_sbyte (seekTo synth3 2)).1 := by
  have h := c1_get_read_equiv real8 0 TC.B 2 (Or.inr (by decide))
  have h3 := c1_get_read_equiv synth3 2 TC.b 1 (Or.inl (by decide))
  exact ⟨Or.inr (by decide), h.2.1, h.2.2.2.2.2.2, Or.inl (by decide), h3.1⟩

theorem close_eq (s : SF) (h : s.mapPresent = true) :
    close s = .ok
      { s with
        mapPresent := false,
        oncloseCount := s.oncloseCount + (if s.hasOnclose then 1 else 0),
        handleClosed := s.handleHasClose || s.handleClosed,
        is_closed := true } := by
  cases hh1 : s.hasOnclose <;> cases hh2 : s.handleHasClose <;>
    simp [close, h, hh1, hh2]

/-- C6: construction never fails because of the mapping.  If mapping is
requested on a read-mode handle with zero file size, or the OS `mmap`
call fails, the instance is still constructed with the synthetic mapping
installed; if mapping is not requested or the handle is not in a read
mode, the synthetic mapping is always installed; and whenever the
synthetic mapping is installed, a mapped-view read is exactly the
seek-then-read computation of the sequential path. -/
theorem c6_construction (fileobj : Handle) (name : Option String)
    (onclose mapped mmapOk : Bool) :
    ((mapped && fileobj.hasMode && fileobj.mode.contains 'r') = true →
      fileobj.data.length = 0 →
      (StructFile_init fileobj name onclose mapped mmapOk).realMap = none) ∧
    (mmapOk = false →
      (StructFile_init fileobj name onclose mapped mmapOk).realMap = none) ∧
    ((mapped && fileobj.hasMode && fileobj.mode.contains 'r') = false →
      (StructFile_init fileobj name onclose mapped mmapOk).realMap = none) ∧
    ((StructFile_init fileobj name onclose mapped mmapOk).realMap = none →
      ∀ p, get_byte (StructFile_init fileobj name onclose mapped mmapOk) p =
        read_byte (seekTo (StructFile_init fileobj name onclose mapped mmapOk) p)) ∧
    (StructFile_init fileobj name onclose mapped mmapOk).is_closed = false ∧
    (StructFile_init fileobj name onclose mapped mmapOk).mapPresent = true := by
  refine ⟨?_, ?_, ?_, ?_, rfl, rfl⟩
  · intro hcond hzero
    simp [StructFile_init, hcond, hzero]
  · intro hok
    subst hok
    simp [StructFile_init]
  · intro hcond
    simp only [StructFile_init, hcond]
    rfl
  · intro hnone p
    simp only [get_byte, mapIndexByte, hnone, read_byte]

/-- C6 witness: a zero-size read-mode handle with mapping requested
still yields an instance, with the synthetic mapping installed. -/
theorem c6_witness :
    ((true && (true : Bool) && ((['r'] : List Char).contains 'r')) = true) ∧
    ((⟨[], true, ['r'], true⟩ : Handle)).data.length = 0 ∧
    (StructFile_init ⟨[], true, ['r'], true⟩ none false true true).realMap = none :=
  ⟨by decide, by decide,
    (c6_construction ⟨[], true, ['r'], true⟩ none false true true).1
      (by decide) (by decide)⟩

/-- C7: on an open instance, one `close` call releases the mapped view,
invokes the registered hook exactly once if registered (and not at all
otherwise), closes the handle if it has a close capability, and sets the
closed flag; and no modeled operation resets the closed flag of a closed
instance. -/
theorem c7_close (s : SF) (h : s.mapPresent = true) :
    (∃ c, close s = .ok c ∧
      c.mapPresent = false ∧
      c.is_closed = true ∧
      (s.hasOnclose = true → c.oncloseCount = s.oncloseCount + 1) ∧
      (s.hasOnclose = false → c.oncloseCount = s.oncloseCount) ∧
      (s.handleHasClose = true → c.handleClosed = true)) ∧
    (∀ t : SF, t.is_closed = true →
      (∀ n, ((readBytes t n).2).is_closed = true) ∧
      (∀ bs, (writeBytes t bs).is_closed = true) ∧
      (∀ p, (seekTo t p).is_closed = true) ∧
      (∀ p, ((get_byte t p).2).is_closed = true) ∧
      (∀ v u, read_varint t = some (v, u) → u.is_closed = true) ∧
      (∀ c, close t = .ok c → c.is_closed = true)) := by
  constructor
  · refine ⟨_, close_eq s h, rfl, rfl, ?_, ?_, ?_⟩
    · intro hh; simp [hh]
    · intro hh; simp [hh]
    · intro hh; simp [hh]
  · intro t ht
    refine ⟨?_, ?_, ?_, ?_, ?_, ?_⟩
    · intro n; simp [readBytes, ht]
    · intro bs; simp [writeBytes, ht]
    · intro p; simp [seekTo, ht]
    · intro p
      rcases hm : t.realMap with _ | m <;>
        simp [get_byte, mapIndexByte, hm, readBytes, seekTo, ht]
    · intro v u hvu
      unfold read_varint at hvu
      rcases hsc : read_varint_from (t.data.drop t.pos) 0 0 with _ | vc
      · rw [hsc] at hvu
        exact absurd hvu (by simp)
      · obtain ⟨v0, c0⟩ := vc
        rw [hsc] at hvu
        simp only [Option.some.injEq, Prod.mk.injEq] at hvu
        obtain ⟨hv1, hv2⟩ := hvu
        subst hv2
        simpa using ht
    · intro c hc
      rw [close_eq t (by
        by_contra hmp
        unfold close at hc
        rw [if_pos (by
          cases hmpv : t.mapPresent
          · rfl
          · exact absurd hmpv hmp)] at hc
        exact absurd hc (by simp))] at hc
      simp only [Except.ok.injEq] at hc
      subst hc
      rfl

/-- C7 witness: the close transition evaluated on a fresh open
instance. -/
theorem c7_witness :
    emptySF.mapPresent = true ∧
    ∃ c, close emptySF = Except.ok c ∧ c.mapPresent = false ∧ c.is_closed = true :=
  ⟨rfl, ((c7_close emptySF rfl).1).elim fun c hc => ⟨c, hc.1, hc.2.1, hc.2.2.1⟩⟩

/-- C10: on an instance whose first `close` succeeded, a second `close`
raises `AttributeError` at `del self.map` (the attribute is already
gone) before the hook can run again or the handle can be re-closed, and
the error leaves the state untouched; the hook is therefore invoked at
most once per instance. -/
theorem c10_double_close (s : SF) (h : s.mapPresent = true) :
    ∀ c, close s = .ok c →
      close c = .error c ∧ c.oncloseCount ≤ s.oncloseCount + 1 := by
  intro c hc
  rw [close_eq s h] at hc
  simp only [Except.ok.injEq] at hc
  subst hc
  constructor
  · rfl
  · cases hh : s.hasOnclose <;> simp [hh]

/-- C10 witness: the successful first close of a fresh instance followed
by the failing second close. -/
theorem c10_witness :
    emptySF.mapPresent = true ∧
    close { emptySF with mapPresent := false, is_closed := true } =
      Except.error { emptySF with mapPresent := false, is_closed := true } :=
  ⟨rfl, (c10_double_close emptySF rfl
    { emptySF with mapPresent := false, is_closed := true }
    (by rw [close_eq emptySF rfl]; rfl)).1⟩

/-- C3 witness: both round-trips instantiated on a concrete two-byte
string over a fresh file. -/
theorem c3_witness :
    (([7, 8] : Bytes).length < 65536) ∧
    (∃ t, read_string (seekTo (write_string emptySF [7, 8]) emptySF.pos) =
      some ([7, 8], t)) ∧
    (∃ t u, write_string2 emptySF [7, 8] = .ok t ∧
      read_string2 (seekTo t emptySF.pos) = some ([7, 8], u)) :=
  ⟨by decide, (c3_string_roundtrips emptySF [7, 8]).1,
    (c3_string_roundtrips emptySF [7, 8]).2.1 (by decide)⟩

/-- C8 counterexample: the claim fails as stated on the
synthetic-mapping path.  On a three-byte synthetic-mapping instance with
the cursor at 0, `get_byte(2)` leaves the cursor at 3 (the fakemap seeks
and reads on the handle), and a sequential write of byte 9 at offset 0
changes what the mapped view returns for the already-written offset 0
from 5 to 9. -/
theorem c8_counterexample :
    synth3.realMap = none ∧ synth3.pos = 0 ∧
    ((get_byte synth3 2).2).pos = 3 ∧
    (get_byte (writeBytes (seekTo synth3 0) [9]) 0).1 = some 9 ∧
    (get_byte synth3 0).1 = some 5 ∧ (9 : Nat) ≠ 5 := by
  decide

/-- C8 (amended): on the real-mapping path a mapped-view access leaves
the whole instance (the cursor included) unchanged; on the
synthetic-mapping path a mapped-view access moves the sequential cursor
to just past the accessed range (seek then read).  Sequential reads
never change what the mapped view returns, and sequential writes never
change the real-mapping snapshot. -/
theorem c8_cursor_effects (s : SF) (m : Bytes) (p : Nat) :
    (s.realMap = some m →
      (get_byte s p).2 = s ∧ (get_sbyte s p).2 = s ∧ (get_int s p).2 = s ∧
      (get_float s p).2 = s) ∧
    (s.realMap = none →
      (get_byte s p).2 = { s with pos := p + ((s.data.drop p).take 1).length } ∧
      tell ((get_int s p).2) = p + ((s.data.drop p).take 4).length) ∧
    (∀ n q, (get_byte ((readBytes s n).2) q).1 = (get_byte s q).1) ∧
    (∀ bs, (writeBytes s bs).realMap = s.realMap) := by
  refine ⟨?_, ?_, ?_, ?_⟩
  · intro hm
    simp [get_byte, mapIndexByte, get_sbyte, get_int, get_float, mapSlice, hm]
  · intro hm
    constructor
    · simp [get_byte, mapIndexByte, hm, readBytes, seekTo]
    · simp [get_int, mapSlice, hm, readBytes, seekTo, tell,
        Nat.add_sub_cancel_left]
      rfl
  · intro n q
    rcases hm : s.realMap with _ | m0 <;>
      simp [get_byte, mapIndexByte, readBytes, seekTo, hm]
  · intro bs
    simp [writeBytes]

/-- C8 witness: the amended statement evaluated on a real-mapping
four-byte instance (state unchanged) and on the synthetic three-byte
instance (cursor lands just past the accessed span). -/
theorem c8_witness :
    real4.realMap = some [1, 2, 3, 4] ∧
    (get_int real4 0).2 = real4 ∧
    synth3.realMap = none ∧
    tell ((get_int synth3 2).2) = 2 + ((synth3.data.drop 2).take 4).length :=
  ⟨by decide, ((c8_cursor_effects real4 [1, 2, 3, 4] 0).1 (by decide)).2.2.1,
   by decide, ((c8_cursor_effects synth3 [] 2).2.1 (by decide)).2⟩

end Structfile
